import Mathlib

/-!
Verification of the telemetry-intent-simulator orchestration core.

Shallow embedding of the Python sources under `src/`:
`intent_manager.py`, `policy_gate.py`, `safety_gate.py`, `state_engine.py`,
`orchestrator.py`, `telemetry.py`.  Python floats are modelled by `ℚ`;
wall-clock timestamps by a monotone counter.  Python's aliasing of `Intent`
objects (the store dict, the orchestrator's `_last_selected_intent`
reference, telemetry) is modelled by a heap of intents addressed by a
numeric `intent_id` (standing for the uuid): the heap never deletes, and
removal from the manager's dict is the `archived` flag, so a stale
reference held by the orchestrator still reads and writes the same record,
exactly as a Python reference to a removed dict value does.
-/

namespace Sim

/-- Python `str.endswith(suffix)`, on the character list. -/
def strEndsWith (s suffix : String) : Bool :=
  suffix.data.isSuffixOf s.data

/-- Python `min` on two floats, written as a conditional so that the
kernel can evaluate it (it agrees with `min_def`). -/
def ratMin (a b : ℚ) : ℚ :=
  if a ≤ b then a else b

/-- Python `max` on two floats, written as a conditional so that the
kernel can evaluate it (it agrees with `max_def`). -/
def ratMax (a b : ℚ) : ℚ :=
  if a ≤ b then b else a

theorem ratMin_eq (a b : ℚ) : ratMin a b = min a b :=
  (min_def a b).symm

theorem ratMax_eq (a b : ℚ) : ratMax a b = max a b :=
  (max_def a b).symm

/-- `SystemState.mode` values: "NOMINAL", "LOW_POWER", "SAFE". -/
inductive Mode where
  | nominal
  | lowPower
  | safe
deriving DecidableEq, Repr

/-- `intent_manager.IntentStatus`. -/
inductive IntentStatus where
  | pending
  | active
  | completed
  | denied
deriving DecidableEq, Repr

/-- `intent_manager.Intent`.  Wall-clock fields (`created_at`,
`last_updated`) and fields the orchestration core never reads
(`goal_target`, `goal_tolerance`, `stable_nominal_cycles`, `block_reason`)
are omitted.  `archived` is the heap-model flag for "removed from the
manager's dict by `archive_completed`"; the record itself survives, as a
Python object does while referenced. -/
structure Intent where
  intent_id : ℕ
  intent_type : String
  goal_reference : Option ℚ
  goal_metric : Option String
  status : IntentStatus
  evaluation_cycles : ℕ
  safety_block_cycles : ℕ
  consecutive_selected_cycles : ℕ
  archived : Bool
deriving DecidableEq, Repr

/-- `state_engine.SystemState`: position, battery, temperature, mode,
cycle count. -/
structure SystemState where
  position : ℚ
  battery_level : ℚ
  temperature : ℚ
  mode : Mode
  cycle_count : ℕ
deriving DecidableEq, Repr

-- Thresholds and constants from `state_engine.SystemState`.

def SAFE_ENTRY_BATTERY : ℚ := 10
def SAFE_EXIT_BATTERY : ℚ := 20
def SAFE_EXIT_EPSILON : ℚ := 0.5
def SAFE_ENTRY_TEMP : ℚ := 120
def SAFE_EXIT_TEMP : ℚ := 100
def SAFE_EXIT_TEMP_EPSILON : ℚ := 1.0
def LOW_POWER_ENTRY : ℚ := 25
def LOW_POWER_EXIT : ℚ := 30
def LOW_POWER_EXIT_EPSILON : ℚ := 0.5
def BASE_LOAD : ℚ := 0.6
def SOLAR_CHARGE_RATE : ℚ := 1.2
def MAX_CHARGE_RATE : ℚ := 1.5
def CHARGE_EFFICIENCY : ℚ := 0.95
def ECLIPSE_PERIOD : ℕ := 20
def ECLIPSE_DURATION : ℕ := 6
def POSITION_MIN : ℚ := -10.0
def POSITION_MAX : ℚ := 10.0
def MAX_TEMP : ℚ := 150.0
def MIN_BATTERY : ℚ := 0.0

-- Constants from `safety_gate.SafetyGate`.

def CRITICAL_BATTERY : ℚ := 5
def CRITICAL_TEMP : ℚ := 140

def ENERGY_INTENSIVE_INTENTS : List String := ["orbit_correction"]

/-- `SafetyGate.INTENT_DOMAIN_MAP.get(t, [])`. -/
def INTENT_DOMAIN_MAP (t : String) : List String :=
  if t = "orbit_correction" then ["battery", "thermal"]
  else if t = "battery_recovery" then ["battery"]
  else if t = "thermal_recovery" then ["thermal"]
  else []

/-- `safety_gate.SafetyDecision`. -/
structure SafetyDecision where
  blocked : Bool
  reason : Option String
  critical_domains : List String
deriving DecidableEq, Repr

/-- The CRITICAL-detection list built at the top of `SafetyGate.evaluate`
(battery appended first, then thermal). -/
def criticalDomains (s : SystemState) : List String :=
  (if s.battery_level ≤ CRITICAL_BATTERY then ["battery"] else []) ++
    (if s.temperature ≥ CRITICAL_TEMP then ["thermal"] else [])

/-- The SAFE-violation list built in `SafetyGate.evaluate`. -/
def violatedDomains (s : SystemState) : List String :=
  (if s.battery_level ≤ SAFE_ENTRY_BATTERY then ["battery"] else []) ++
    (if s.temperature ≥ SAFE_ENTRY_TEMP then ["thermal"] else [])

/-- `safety_gate.SafetyGate.evaluate`.  The domain-aware loop
(`for domain in violated_domains: ...`) returns on the first violated
domain that the candidate affects without being a recovery intent, which
is `List.find?` over the violated list. -/
def SafetyGate.evaluate (selected : Option Intent) (s : SystemState) :
    SafetyDecision :=
  if s.battery_level ≤ MIN_BATTERY then
    ⟨true, some "battery_depleted", criticalDomains s⟩
  else if s.temperature ≥ MAX_TEMP then
    ⟨true, some "temperature_max_exceeded", criticalDomains s⟩
  else if s.position < POSITION_MIN ∨ s.position > POSITION_MAX then
    ⟨true, some "position_bounds_exceeded", criticalDomains s⟩
  else
    match selected with
    | none => ⟨false, none, criticalDomains s⟩
    | some it =>
      if s.mode = Mode.safe ∧ ¬ strEndsWith it.intent_type "_recovery" then
        ⟨true, some "safe_mode_mission_blocked", criticalDomains s⟩
      else if s.mode = Mode.lowPower ∧
          it.intent_type ∈ ENERGY_INTENSIVE_INTENTS then
        ⟨true, some "low_power_energy_intensive_blocked", criticalDomains s⟩
      else
        match (violatedDomains s).find? (fun d =>
            (INTENT_DOMAIN_MAP it.intent_type).contains d &&
              !strEndsWith it.intent_type "_recovery") with
        | some d =>
          ⟨true, some (d ++ "_unsafe_execution_blocked"), criticalDomains s⟩
        | none => ⟨false, none, criticalDomains s⟩

-- Constants from `policy_gate.PolicyGate`.

def RECOVERY_SCALE : ℚ := 1000.0
def LOW_POWER_BIAS : ℚ := 50.0
def NOMINAL_RECOVERY_PENALTY : ℚ := -200.0
def HISTORY_PENALTY_FACTOR : ℚ := 0.5

/-- `policy_gate.PolicyResult`. -/
structure PolicyResult where
  selected_intent : Option Intent
  scores : List (ℕ × ℚ)
  reason : String
deriving DecidableEq, Repr

/-- The per-intent score computed in the loop body of
`PolicyGate.evaluate`: `score` starts at `0.0` and accumulates the
recovery/mission base, the two independent mode-bias additions, and the
history penalty. -/
def policyScore (i : Intent) (s : SystemState) : ℚ :=
  (if i.intent_type = "battery_recovery" then
    (if s.mode = Mode.lowPower then
      ratMax 0 ((LOW_POWER_EXIT - s.battery_level) / LOW_POWER_EXIT) *
        RECOVERY_SCALE
    else
      ratMax 0 ((SAFE_EXIT_BATTERY - s.battery_level) / SAFE_EXIT_BATTERY) *
        RECOVERY_SCALE)
  else if i.intent_type = "thermal_recovery" then
    ratMax 0 ((s.temperature - SAFE_EXIT_TEMP) / SAFE_EXIT_TEMP) *
      RECOVERY_SCALE
  else if i.intent_type = "orbit_correction" then 100.0
  else 0)
  + (if s.mode = Mode.lowPower ∧ strEndsWith i.intent_type "_recovery" then
      LOW_POWER_BIAS
    else 0)
  + (if s.mode = Mode.nominal ∧ strEndsWith i.intent_type "_recovery" then
      NOMINAL_RECOVERY_PENALTY
    else 0)
  - (i.safety_block_cycles : ℚ) * HISTORY_PENALTY_FACTOR

/-- Python dict assignment `scores[k] = v` on the insertion-ordered pair
list: overwrite in place when the key exists, else append. -/
def dictInsert (l : List (ℕ × ℚ)) (k : ℕ) (v : ℚ) : List (ℕ × ℚ) :=
  if l.any (fun p => p.1 == k) then
    l.map (fun p => if p.1 == k then (k, v) else p)
  else l ++ [(k, v)]

/-- Python `max(scores, key=scores.get)` over the insertion-ordered pairs:
a left fold that replaces the current best only on a strictly greater
value, so the first maximal entry wins. -/
def maxByValFirst (x : ℕ × ℚ) (l : List (ℕ × ℚ)) : ℕ × ℚ :=
  l.foldl (fun b y => if y.2 > b.2 then y else b) x

/-- `policy_gate.PolicyGate.evaluate`. -/
def PolicyGate.evaluate (intents : List Intent) (s : SystemState) :
    PolicyResult :=
  match intents with
  | [] => ⟨none, [], "no_active_intents"⟩
  | i0 :: rest =>
    let scores := (i0 :: rest).foldl
      (fun acc i => dictInsert acc i.intent_id (policyScore i s)) []
    let best :=
      match scores with
      | [] => (i0.intent_id, policyScore i0 s)
        -- unreachable: the fold over a nonempty intent list is nonempty
      | x :: xs => maxByValFirst x xs
    ⟨(i0 :: rest).find? (fun i => i.intent_id == best.1), scores,
      "highest_score_selected"⟩

-- ----------------------------------------------------------------
-- `state_engine.StateEngine`
-- ----------------------------------------------------------------

/-- `StateEngine._update_mode`.  The Python `if`/`return` ladder: SAFE
entry, then SAFE exit (falling through to the LOW_POWER checks when the
exit condition fails), then LOW_POWER entry, then LOW_POWER exit. -/
def updateMode (s : SystemState) : SystemState :=
  if s.battery_level ≤ SAFE_ENTRY_BATTERY ∨
      s.temperature ≥ SAFE_ENTRY_TEMP then
    { s with mode := Mode.safe }
  else if s.mode = Mode.safe ∧
      s.battery_level ≥ SAFE_EXIT_BATTERY - SAFE_EXIT_EPSILON ∧
      s.temperature ≤ SAFE_EXIT_TEMP + SAFE_EXIT_TEMP_EPSILON then
    { s with mode := Mode.nominal }
  else if s.battery_level ≤ LOW_POWER_ENTRY then
    { s with mode := Mode.lowPower }
  else if s.mode = Mode.lowPower ∧
      s.battery_level ≥ LOW_POWER_EXIT - LOW_POWER_EXIT_EPSILON then
    { s with mode := Mode.nominal }
  else s

/-- `StateEngine._apply_orbit_correction`: `step = 0.5`, battery cost
`0.5 × 2.0`, thermal cost `0.5 × 4.0`. -/
def applyOrbitCorrection (s : SystemState) : SystemState :=
  { s with
    position := s.position + 0.5
    battery_level := s.battery_level - 0.5 * 2.0
    temperature := s.temperature + 0.5 * 4.0 }

/-- `StateEngine._apply_power_model`. -/
def applyPowerModel (s : SystemState) : SystemState :=
  let cycle_in_period := s.cycle_count % ECLIPSE_PERIOD
  let in_sunlight := cycle_in_period < ECLIPSE_PERIOD - ECLIPSE_DURATION
  let solar_in : ℚ := if in_sunlight then SOLAR_CHARGE_RATE else 0.0
  let charge_in := ratMin MAX_CHARGE_RATE solar_in * CHARGE_EFFICIENCY
  let net := charge_in - BASE_LOAD
  let b := s.battery_level + net
  { s with battery_level := if b < MIN_BATTERY then MIN_BATTERY else b }

/-- The battery-recovery target selection, duplicated verbatim between
`_apply_recovery_physics` and `_check_completion` in the source. -/
def recoveryTarget (s : SystemState) : ℚ :=
  if s.mode = Mode.safe then SAFE_EXIT_BATTERY
  else if s.mode = Mode.lowPower then LOW_POWER_EXIT
  else if s.battery_level < LOW_POWER_EXIT then LOW_POWER_EXIT
  else SAFE_EXIT_BATTERY

/-- `StateEngine._apply_recovery_physics`. -/
def applyRecoveryPhysics (it : Intent) (s : SystemState) : SystemState :=
  let s :=
    if it.intent_type = "battery_recovery" then
      let target := recoveryTarget s
      let deficit := target - s.battery_level
      if deficit > 0 then
        let b := s.battery_level + 0.1 * deficit
        { s with battery_level := if b > target then target else b }
      else s
    else s
  if it.intent_type = "thermal_recovery" then
    let excess := s.temperature - SAFE_EXIT_TEMP
    if excess > 0 then
      { s with temperature := s.temperature - 0.1 * excess }
    else s
  else s

/-- `StateEngine._check_completion`. -/
def checkCompletion (it : Intent) (s : SystemState) : Intent :=
  let it :=
    if it.intent_type = "orbit_correction" then
      let goal_value : ℚ :=
        if it.goal_metric = some "position" then
          match it.goal_reference with
          | some r => r
          | none => 3.0
        else 3.0
      if s.position ≥ goal_value then
        { it with status := IntentStatus.completed }
      else it
    else it
  if it.intent_type = "battery_recovery" then
    if s.battery_level ≥ recoveryTarget s then
      { it with status := IntentStatus.completed }
    else it
  else if it.intent_type = "thermal_recovery" then
    if s.temperature ≤ SAFE_EXIT_TEMP + SAFE_EXIT_TEMP_EPSILON then
      { it with status := IntentStatus.completed }
    else it
  else it

/-- `StateEngine.apply`.  Returns the Python boolean, the mutated
`SystemState`, and the mutated intent (written back to the heap by the
orchestrator, standing for Python's in-place mutation). -/
def StateEngine.apply (s : SystemState) (intent : Option Intent) :
    Bool × SystemState × Option Intent :=
  let s := updateMode s
  match intent with
  | none => (false, s, none)
  | some it =>
    let s := { s with cycle_count := s.cycle_count + 1 }
    let it := { it with
      evaluation_cycles := it.evaluation_cycles + 1
      status := IntentStatus.active }
    if s.mode = Mode.safe then
      let s := applyPowerModel s
      let s := applyRecoveryPhysics it s
      let it := checkCompletion it s
      (true, s, some it)
    else
      let s := if it.intent_type = "orbit_correction" then
          applyOrbitCorrection s
        else s
      let s := applyPowerModel s
      let s := if it.intent_type = "battery_recovery" ∨
          it.intent_type = "thermal_recovery" then
          applyRecoveryPhysics it s
        else s
      let it := checkCompletion it s
      (true, s, some it)

-- ----------------------------------------------------------------
-- Telemetry (frame path)
-- ----------------------------------------------------------------

/-- Modelled from the spec: `telemetry.py` under `src/` lacks the
`TelemetryBuilder` class and the `TelemetryBus.publish_frame` /
`TelemetryBus.get_frames` operations that `orchestrator.py` and `main.py`
call; only this earlier `TelemetryBus` (`record`/`dump`/`latest`) is
present.  Per §4.6 and §6 a frame is a value-only record holding the
state snapshot, the policy selection with scores, the execution outcome,
and the safety decision, tagged `type=cycle_frame` and timestamped by the
bus on append; the wall clock is abstracted to the monotone counter
`World.clock`. -/
structure Frame where
  timestamp : ℕ
  ftype : String
  state_position : ℚ
  state_battery_level : ℚ
  state_temperature : ℚ
  state_mode : Mode
  policy_selected_intent_id : Option ℕ
  policy_scores : List (ℕ × ℚ)
  execution_executed_intent_id : Option ℕ
  execution_override_applied : Bool
  execution_lock_applied : Bool
  safety_blocked : Bool
  safety_critical_domains : List String
  safety_reason : Option String
deriving DecidableEq, Repr

/-- The whole simulation: the intent heap (see the header note on
aliasing), the fresh-id counter standing for uuid generation, the
`SystemState` owned by `StateEngine`, the orchestrator's
`_last_selected_intent` reference (as a heap id) and
`_pending_safe_injections`, and the telemetry bus (frame list plus the
abstract clock). -/
structure World where
  heap : List Intent
  nextId : ℕ
  state : SystemState
  lastSelected : Option ℕ
  pendingSafeInjections : List String
  frames : List Frame
  clock : ℕ
deriving DecidableEq, Repr

/-- Dereference an intent id, Python-style: the reference stays valid even
after archival. -/
def heapGet (w : World) (id : ℕ) : Option Intent :=
  w.heap.find? (fun i => i.intent_id == id)

/-- Write back an in-place mutation of the intent with `it.intent_id`. -/
def heapSet (w : World) (it : Intent) : World :=
  { w with heap := w.heap.map (fun j =>
      if j.intent_id == it.intent_id then it else j) }

/-- `IntentManager.submit_intent`: fresh id, `PENDING`, stored (appended,
matching dict insertion order), returned. -/
def submitIntent (w : World) (t : String) (goal_reference : Option ℚ)
    (goal_metric : Option String) : Intent × World :=
  let it : Intent :=
    { intent_id := w.nextId
      intent_type := t
      goal_reference := goal_reference
      goal_metric := goal_metric
      status := IntentStatus.pending
      evaluation_cycles := 0
      safety_block_cycles := 0
      consecutive_selected_cycles := 0
      archived := false }
  (it, { w with heap := w.heap ++ [it], nextId := w.nextId + 1 })

/-- `IntentManager.list_active`: all non-archived intents with status
`PENDING` or `ACTIVE`, in insertion order. -/
def listActive (w : World) : List Intent :=
  w.heap.filter (fun i => !i.archived &&
    (i.status == IntentStatus.pending || i.status == IntentStatus.active))

/-- `IntentManager.get_active_by_type`: first stored intent of the type
with an active status. -/
def getActiveByType (w : World) (t : String) : Option Intent :=
  w.heap.find? (fun i => !i.archived && i.intent_type == t &&
    (i.status == IntentStatus.pending || i.status == IntentStatus.active))

/-- `IntentManager.archive_completed`: remove every `COMPLETED` or
`DENIED` intent from the dict (here: set `archived`). -/
def archiveCompleted (w : World) : World :=
  { w with heap := w.heap.map (fun i =>
      if i.status == IntentStatus.completed ∨
          i.status == IntentStatus.denied then
        { i with archived := true }
      else i) }

-- ----------------------------------------------------------------
-- `orchestrator.Orchestrator`
-- ----------------------------------------------------------------

def MIN_RECOVERY_LOCK_CYCLES : ℕ := 3

/-- `Orchestrator._compute_safe_injections`.  The source returns a
Python set; it holds at most the two distinct tags below, and the only
set operations used are membership, emptiness and iteration, so it is
modelled as a list built in the code's insertion order (battery first,
then thermal). -/
def computeSafeInjections (s : SystemState) : List String :=
  if s.mode ≠ Mode.safe then []
  else
    (if s.battery_level ≤ SAFE_ENTRY_BATTERY then ["battery_recovery"]
      else []) ++
    (if s.temperature ≥ SAFE_ENTRY_TEMP then ["thermal_recovery"] else [])

/-- The loop body of `Orchestrator._apply_pending_safe_injections`:
submit a recovery intent of the staged type unless one is active. -/
def injectStep (w : World) (t : String) : World :=
  match getActiveByType w t with
  | some _ => w
  | none => (submitIntent w t none none).2

/-- `Orchestrator._apply_pending_safe_injections`. -/
def applyPendingSafeInjections (w : World) : World :=
  w.pendingSafeInjections.foldl injectStep w

/-- `Orchestrator._apply_critical_override`.  The source's outer loop
returns on its first iteration (either an existing recovery intent or a
freshly submitted one), so only the first critical domain is consulted. -/
def applyCriticalOverride (w : World) (crit : List String)
    (active : List Intent) : Option Intent × World :=
  match crit with
  | [] => (none, w)
  | d :: _ =>
    let recovery_type := d ++ "_recovery"
    match active.find? (fun i => i.intent_type == recovery_type) with
    | some i => (some i, w)
    | none =>
      let (it, w) := submitIntent w recovery_type none none
      (some it, w)

/-- `Orchestrator._apply_recovery_lock`.  The `active_intents` parameter
of the source is unused there and omitted here.  `lastSelected` is
dereferenced through the heap; the id always resolves because the heap
never deletes. -/
def applyRecoveryLock (w : World) (selected : Option ℕ)
    (safety : SafetyDecision) : Option ℕ :=
  match w.lastSelected with
  | none => selected
  | some lastId =>
    match heapGet w lastId with
    | none => selected  -- unreachable: the heap never deletes
    | some last =>
      if ¬ strEndsWith last.intent_type "_recovery" then selected
      else if safety.critical_domains ≠ [] then selected
      else if last.consecutive_selected_cycles <
          MIN_RECOVERY_LOCK_CYCLES then some lastId
      else selected

/-- `Orchestrator._update_lock_tracking`. -/
def updateLockTracking (w : World) (selected : Option ℕ) : World :=
  match selected with
  | none => { w with lastSelected := none }
  | some id =>
    match heapGet w id with
    | none => { w with lastSelected := some id }  -- unreachable
    | some it =>
      let it :=
        if w.lastSelected = some id then
          { it with consecutive_selected_cycles :=
              it.consecutive_selected_cycles + 1 }
        else { it with consecutive_selected_cycles := 1 }
      { heapSet w it with lastSelected := some id }

-- The per-cycle pipeline of `Orchestrator.run`, staged so that each
-- intermediate decision is a definition the theorems can name.

/-- Steps 1–2 of the cycle: apply the staged SAFE injections, then
recompute the staging for the next cycle. -/
def stageWorld (w : World) : World :=
  let w := applyPendingSafeInjections w
  { w with pendingSafeInjections := computeSafeInjections w.state }

/-- Step 3: policy evaluation over the active intents. -/
def cyclePolicy (w : World) : PolicyResult :=
  PolicyGate.evaluate (listActive (stageWorld w)) (stageWorld w).state

/-- Step 4: first safety evaluation, on the policy-selected candidate. -/
def cycleSafetyFirst (w : World) : SafetyDecision :=
  SafetyGate.evaluate (cyclePolicy w).selected_intent (stageWorld w).state

/-- Step 5: critical override.  Yields the selection after override (as a
heap id), the `override_applied` flag, and the world (the override may
submit a fresh recovery intent). -/
def overrideStep (w : World) : Option ℕ × Bool × World :=
  let w1 := stageWorld w
  let policySel := (cyclePolicy w).selected_intent.map (·.intent_id)
  if (cycleSafetyFirst w).critical_domains = [] then
    (policySel, false, w1)
  else
    let (target, w2) := applyCriticalOverride w1
      (cycleSafetyFirst w).critical_domains (listActive w1)
    match target with
    | none => (policySel, false, w2)
    | some t =>
      if policySel = some t.intent_id then (policySel, false, w2)
      else (some t.intent_id, true, w2)

/-- Step 6: the recovery lock, giving the finalized selection. -/
def cycleFinalSelected (w : World) : Option ℕ :=
  applyRecoveryLock (overrideStep w).2.2 (overrideStep w).1
    (cycleSafetyFirst w)

/-- The `lock_applied` flag: the lock changed the selection. -/
def cycleLockApplied (w : World) : Bool :=
  cycleFinalSelected w != (overrideStep w).1

/-- Step 7: second safety evaluation, on the finalized selection. -/
def cycleSafetyFinal (w : World) : SafetyDecision :=
  SafetyGate.evaluate ((cycleFinalSelected w).bind
    (heapGet (overrideStep w).2.2)) (overrideStep w).2.2.state

/-- `Orchestrator._emit_frame` plus the bus append (`publish_frame`,
modelled from the spec: the bus stamps the frame with the clock and the
`cycle_frame` tag).  Reads the post-mutation `SystemState`, as the
builder reads `state_engine.system_state` at emission time. -/
def emitFrame (w : World) (policy : PolicyResult)
    (safety : SafetyDecision) (executed : Option ℕ)
    (override_applied lock_applied : Bool) : World :=
  let f : Frame :=
    { timestamp := w.clock
      ftype := "cycle_frame"
      state_position := w.state.position
      state_battery_level := w.state.battery_level
      state_temperature := w.state.temperature
      state_mode := w.state.mode
      policy_selected_intent_id :=
        policy.selected_intent.map (·.intent_id)
      policy_scores := policy.scores
      execution_executed_intent_id := executed
      execution_override_applied := override_applied
      execution_lock_applied := lock_applied
      safety_blocked := safety.blocked
      safety_critical_domains := safety.critical_domains
      safety_reason := safety.reason }
  { w with frames := w.frames ++ [f], clock := w.clock + 1 }

/-- Modelled from the spec: `TelemetryBus.get_frames` (absent from
`src/telemetry.py`) returns the bus's frame list. -/
def getFrames (w : World) : List Frame :=
  w.frames

/-- One iteration of the loop body of `Orchestrator.run`: steps 8–12
(block path, execution, lock tracking, archival, telemetry) on top of the
staged pipeline above. -/
def cycleStep (w : World) : World :=
  let w2 := (overrideStep w).2.2
  if (cycleSafetyFinal w).blocked then
    let w3 :=
      match cycleFinalSelected w with
      | none => w2
      | some id =>
        match heapGet w2 id with
        | none => w2
        | some it => heapSet w2
            { it with safety_block_cycles := it.safety_block_cycles + 1 }
    emitFrame w3 (cyclePolicy w) (cycleSafetyFinal w) none
      (overrideStep w).2.1 (cycleLockApplied w)
  else
    let (w3, executed) :=
      match cycleFinalSelected w with
      | none => (w2, none)
      | some id =>
        match heapGet w2 id with
        | none => (w2, none)
        | some it =>
          match StateEngine.apply w2.state (some it) with
          | (ok, s', it') =>
            let w3 := heapSet { w2 with state := s' } (it'.getD it)
            (w3, if ok then some id else none)
    let w4 := updateLockTracking w3 (cycleFinalSelected w)
    let w5 := archiveCompleted w4
    emitFrame w5 (cyclePolicy w) (cycleSafetyFinal w) executed
      (overrideStep w).2.1 (cycleLockApplied w)

/-- `Orchestrator.run(cycles=n)`. -/
def run (w : World) : ℕ → World
  | 0 => w
  | n + 1 => run (cycleStep w) n

-- ----------------------------------------------------------------
-- Frame-preservation lemmas for the cycle pipeline
-- ----------------------------------------------------------------

theorem injectStep_fields (w : World) (t : String) :
    (injectStep w t).state = w.state ∧
    (injectStep w t).frames = w.frames ∧
    (injectStep w t).clock = w.clock ∧
    (injectStep w t).lastSelected = w.lastSelected ∧
    (injectStep w t).pendingSafeInjections = w.pendingSafeInjections := by
  unfold injectStep
  cases getActiveByType w t <;> exact ⟨rfl, rfl, rfl, rfl, rfl⟩

theorem foldl_injectStep_fields (l : List String) : ∀ w : World,
    (l.foldl injectStep w).state = w.state ∧
    (l.foldl injectStep w).frames = w.frames ∧
    (l.foldl injectStep w).clock = w.clock ∧
    (l.foldl injectStep w).lastSelected = w.lastSelected := by
  induction l with
  | nil => exact fun w => ⟨rfl, rfl, rfl, rfl⟩
  | cons t rest ih =>
    intro w
    rw [List.foldl_cons]
    obtain ⟨h1, h2, h3, h4⟩ := ih (injectStep w t)
    obtain ⟨g1, g2, g3, g4, _⟩ := injectStep_fields w t
    exact ⟨h1.trans g1, h2.trans g2, h3.trans g3, h4.trans g4⟩

theorem stageWorld_fields (w : World) :
    (stageWorld w).state = w.state ∧
    (stageWorld w).frames = w.frames ∧
    (stageWorld w).clock = w.clock ∧
    (stageWorld w).lastSelected = w.lastSelected ∧
    (stageWorld w).pendingSafeInjections =
      computeSafeInjections w.state := by
  unfold stageWorld applyPendingSafeInjections
  obtain ⟨h1, h2, h3, h4⟩ :=
    foldl_injectStep_fields w.pendingSafeInjections w
  exact ⟨h1, h2, h3, h4, by simp [h1]⟩

theorem applyCriticalOverride_fields (w : World) (crit : List String)
    (active : List Intent) :
    (applyCriticalOverride w crit active).2.state = w.state ∧
    (applyCriticalOverride w crit active).2.frames = w.frames ∧
    (applyCriticalOverride w crit active).2.clock = w.clock ∧
    (applyCriticalOverride w crit active).2.lastSelected = w.lastSelected ∧
    (applyCriticalOverride w crit active).2.pendingSafeInjections =
      w.pendingSafeInjections := by
  unfold applyCriticalOverride
  match crit with
  | [] => exact ⟨rfl, rfl, rfl, rfl, rfl⟩
  | d :: _ =>
    dsimp only
    cases active.find? (fun i => i.intent_type == (d ++ "_recovery")) <;>
      exact ⟨rfl, rfl, rfl, rfl, rfl⟩

theorem overrideStep_fields (w : World) :
    (overrideStep w).2.2.state = w.state ∧
    (overrideStep w).2.2.frames = w.frames ∧
    (overrideStep w).2.2.clock = w.clock ∧
    (overrideStep w).2.2.lastSelected = w.lastSelected ∧
    (overrideStep w).2.2.pendingSafeInjections =
      computeSafeInjections w.state := by
  obtain ⟨h1, h2, h3, h4, h5⟩ := stageWorld_fields w
  unfold overrideStep
  dsimp only
  split_ifs with hc
  · exact ⟨h1, h2, h3, h4, h5⟩
  · obtain ⟨g1, g2, g3, g4, g5⟩ := applyCriticalOverride_fields
      (stageWorld w) (cycleSafetyFirst w).critical_domains
      (listActive (stageWorld w))
    rcases hr : (applyCriticalOverride (stageWorld w)
        (cycleSafetyFirst w).critical_domains
        (listActive (stageWorld w))) with ⟨target, w2⟩
    rw [hr] at g1 g2 g3 g4 g5
    cases target with
    | none => exact ⟨g1.trans h1, g2.trans h2, g3.trans h3,
        g4.trans h4, g5.trans h5⟩
    | some t =>
      dsimp only
      split_ifs <;>
        exact ⟨g1.trans h1, g2.trans h2, g3.trans h3,
          g4.trans h4, g5.trans h5⟩

theorem heapSet_fields (w : World) (it : Intent) :
    (heapSet w it).state = w.state ∧
    (heapSet w it).frames = w.frames ∧
    (heapSet w it).clock = w.clock ∧
    (heapSet w it).lastSelected = w.lastSelected := by
  exact ⟨rfl, rfl, rfl, rfl⟩

theorem updateLockTracking_fields (w : World) (sel : Option ℕ) :
    (updateLockTracking w sel).state = w.state ∧
    (updateLockTracking w sel).frames = w.frames ∧
    (updateLockTracking w sel).clock = w.clock := by
  unfold updateLockTracking
  cases sel with
  | none => exact ⟨rfl, rfl, rfl⟩
  | some id =>
    dsimp only
    cases heapGet w id with
    | none => exact ⟨rfl, rfl, rfl⟩
    | some it =>
      dsimp only
      split_ifs <;> exact ⟨rfl, rfl, rfl⟩

theorem archiveCompleted_fields (w : World) :
    (archiveCompleted w).state = w.state ∧
    (archiveCompleted w).frames = w.frames ∧
    (archiveCompleted w).clock = w.clock := by
  exact ⟨rfl, rfl, rfl⟩

theorem emitFrame_fields (w : World) (p : PolicyResult)
    (sf : SafetyDecision) (ex : Option ℕ) (ov lk : Bool) :
    (emitFrame w p sf ex ov lk).state = w.state ∧
    (emitFrame w p sf ex ov lk).heap = w.heap ∧
    (emitFrame w p sf ex ov lk).frames = w.frames ++
      [{ timestamp := w.clock
         ftype := "cycle_frame"
         state_position := w.state.position
         state_battery_level := w.state.battery_level
         state_temperature := w.state.temperature
         state_mode := w.state.mode
         policy_selected_intent_id :=
           p.selected_intent.map (·.intent_id)
         policy_scores := p.scores
         execution_executed_intent_id := ex
         execution_override_applied := ov
         execution_lock_applied := lk
         safety_blocked := sf.blocked
         safety_critical_domains := sf.critical_domains
         safety_reason := sf.reason }] ∧
    (emitFrame w p sf ex ov lk).clock = w.clock + 1 := by
  exact ⟨rfl, rfl, rfl, rfl⟩

-- ----------------------------------------------------------------
-- StateEngine arithmetic lemmas
-- ----------------------------------------------------------------

theorem applyPowerModel_battery_nonneg (s : SystemState) :
    0 ≤ (applyPowerModel s).battery_level := by
  unfold applyPowerModel
  dsimp only
  split_ifs <;> first
    | (norm_num [MIN_BATTERY]; done)
    | (rename_i h; rw [not_lt, MIN_BATTERY] at h; linarith)

theorem recoveryTarget_nonneg (s : SystemState) :
    0 ≤ recoveryTarget s := by
  unfold recoveryTarget
  split_ifs <;> norm_num [SAFE_EXIT_BATTERY, LOW_POWER_EXIT]

theorem applyRecoveryPhysics_battery_ge (it : Intent) (s : SystemState) :
    s.battery_level ≤ (applyRecoveryPhysics it s).battery_level := by
  unfold applyRecoveryPhysics
  by_cases hb : it.intent_type = "battery_recovery"
  · by_cases ht : it.intent_type = "thermal_recovery"
    · exact absurd (hb.symm.trans ht) (by decide)
    · simp only [if_pos hb, if_neg ht]
      try dsimp only
      split_ifs with h1 h2
      · dsimp only; linarith
      · dsimp only; linarith
      · rfl
  · simp only [if_neg hb]
    by_cases ht : it.intent_type = "thermal_recovery"
    · simp only [if_pos ht]
      try dsimp only
      split_ifs with h1 <;> rfl
    · simp only [if_neg ht]
      exact le_refl _

theorem applyRecoveryPhysics_battery_branches (it : Intent)
    (s : SystemState) (h : 0 ≤ s.battery_level) :
    0 ≤ (applyRecoveryPhysics it s).battery_level :=
  le_trans h (applyRecoveryPhysics_battery_ge it s)

set_option maxHeartbeats 1000000 in
theorem apply_some_battery_nonneg (s : SystemState) (it : Intent) :
    0 ≤ (StateEngine.apply s (some it)).2.1.battery_level := by
  unfold StateEngine.apply
  dsimp only
  split_ifs with h1 h2 h3 h4
  · exact applyRecoveryPhysics_battery_branches _ _
      (applyPowerModel_battery_nonneg _)
  · exact applyRecoveryPhysics_battery_branches _ _
      (applyPowerModel_battery_nonneg _)
  · exact applyRecoveryPhysics_battery_branches _ _
      (applyPowerModel_battery_nonneg _)
  · exact applyPowerModel_battery_nonneg _
  · exact applyPowerModel_battery_nonneg _

-- ----------------------------------------------------------------
-- Heap read/write lemmas
-- ----------------------------------------------------------------

theorem find?_set {l : List Intent} {id : ℕ} {it it' : Intent}
    (h : l.find? (fun i => i.intent_id == id) = some it)
    (hid : it'.intent_id = it.intent_id) :
    (l.map (fun j => if j.intent_id == it'.intent_id then it' else j)).find?
      (fun i => i.intent_id == id) = some it' := by
  induction l with
  | nil => simp at h
  | cons b rest ih =>
    rcases hb : (b.intent_id == id) with _ | _
    · simp only [List.find?, hb] at h
      have hit : it.intent_id = id := by
        have := List.find?_some h
        rwa [beq_iff_eq] at this
      have hcond : (b.intent_id == it'.intent_id) = false := by
        rw [beq_eq_false_iff_ne] at hb ⊢
        rw [hid, hit]
        exact hb
      simp only [List.map_cons, hcond, Bool.false_eq_true, if_false,
        List.find?, hb]
      exact ih h
    · simp only [List.find?, hb] at h
      injection h with h
      subst h
      have hcond : (b.intent_id == it'.intent_id) = true := by
        rw [hid]
        exact beq_self_eq_true _
      have hfind : (it'.intent_id == id) = true := by
        rw [hid]
        exact hb
      simp only [List.map_cons, hcond, if_true, List.find?, hfind]

theorem heapGet_heapSet {w : World} {id : ℕ} {it it' : Intent}
    (h : heapGet w id = some it) (hid : it'.intent_id = it.intent_id) :
    heapGet (heapSet w it') id = some it' :=
  find?_set h hid

-- ----------------------------------------------------------------
-- Cycle-shape lemmas
-- ----------------------------------------------------------------

theorem cycleStep_blocked (w : World)
    (hb : (cycleSafetyFinal w).blocked = true) :
    (cycleStep w).state = w.state ∧
    (cycleStep w).frames = w.frames ++
      [{ timestamp := w.clock
         ftype := "cycle_frame"
         state_position := w.state.position
         state_battery_level := w.state.battery_level
         state_temperature := w.state.temperature
         state_mode := w.state.mode
         policy_selected_intent_id :=
           (cyclePolicy w).selected_intent.map (·.intent_id)
         policy_scores := (cyclePolicy w).scores
         execution_executed_intent_id := none
         execution_override_applied := (overrideStep w).2.1
         execution_lock_applied := cycleLockApplied w
         safety_blocked := (cycleSafetyFinal w).blocked
         safety_critical_domains := (cycleSafetyFinal w).critical_domains
         safety_reason := (cycleSafetyFinal w).reason }] ∧
    (cycleStep w).clock = w.clock + 1 := by
  obtain ⟨o1, o2, o3, _, _⟩ := overrideStep_fields w
  unfold cycleStep
  rw [if_pos hb]
  rcases cycleFinalSelected w with _ | id
  · dsimp only
    obtain ⟨e1, _, e3, e4⟩ := emitFrame_fields (overrideStep w).2.2
      (cyclePolicy w) (cycleSafetyFinal w) none
      (overrideStep w).2.1 (cycleLockApplied w)
    rw [e1, e3, e4, o1, o2, o3]
    exact ⟨rfl, rfl, rfl⟩
  · dsimp only
    rcases heapGet (overrideStep w).2.2 id with _ | it
    · dsimp only
      obtain ⟨e1, _, e3, e4⟩ := emitFrame_fields (overrideStep w).2.2
        (cyclePolicy w) (cycleSafetyFinal w) none
        (overrideStep w).2.1 (cycleLockApplied w)
      rw [e1, e3, e4, o1, o2, o3]
      exact ⟨rfl, rfl, rfl⟩
    · dsimp only
      obtain ⟨s1, s2, s3, _⟩ := heapSet_fields (overrideStep w).2.2
        { it with safety_block_cycles := it.safety_block_cycles + 1 }
      obtain ⟨e1, _, e3, e4⟩ := emitFrame_fields
        (heapSet (overrideStep w).2.2
          { it with safety_block_cycles := it.safety_block_cycles + 1 })
        (cyclePolicy w) (cycleSafetyFinal w) none
        (overrideStep w).2.1 (cycleLockApplied w)
      rw [e1, e3, e4, s1, s2, s3, o1, o2, o3]
      exact ⟨rfl, rfl, rfl⟩

theorem cycleStep_blocked_heap (w : World)
    (hb : (cycleSafetyFinal w).blocked = true) {id : ℕ} {it : Intent}
    (hsel : cycleFinalSelected w = some id)
    (hget : heapGet (overrideStep w).2.2 id = some it) :
    heapGet (cycleStep w) id =
      some { it with safety_block_cycles := it.safety_block_cycles + 1 } := by
  unfold cycleStep
  rw [if_pos hb, hsel]
  dsimp only
  rw [hget]
  dsimp only
  show heapGet (emitFrame _ _ _ _ _ _) id = _
  have : ∀ (w3 : World) (p sf ex ov lk),
      heapGet (emitFrame w3 p sf ex ov lk) id = heapGet w3 id :=
    fun w3 p sf ex ov lk => rfl
  rw [this]
  exact heapGet_heapSet hget rfl

theorem postExec_state (w3 : World) (sel : Option ℕ) (p : PolicyResult)
    (sf : SafetyDecision) (ex : Option ℕ) (ov lk : Bool) :
    (emitFrame (archiveCompleted (updateLockTracking w3 sel))
      p sf ex ov lk).state = w3.state := by
  obtain ⟨u1, _, _⟩ := updateLockTracking_fields w3 sel
  exact ((emitFrame_fields _ _ _ _ _ _).1).trans
    (((archiveCompleted_fields _).1).trans u1)

theorem cycleStep_state_cases (w : World) :
    (cycleStep w).state = w.state ∨
    ∃ it : Intent,
      (cycleStep w).state = (StateEngine.apply w.state (some it)).2.1 := by
  obtain ⟨o1, _, _, _, _⟩ := overrideStep_fields w
  unfold cycleStep
  split_ifs with hb
  · left
    rcases cycleFinalSelected w with _ | id
    · exact o1
    · dsimp only
      rcases heapGet (overrideStep w).2.2 id with _ | it
      · exact o1
      · dsimp only
        obtain ⟨s1, _, _, _⟩ := heapSet_fields (overrideStep w).2.2
          { it with safety_block_cycles := it.safety_block_cycles + 1 }
        exact s1.trans o1
  · rcases cycleFinalSelected w with _ | id
    · left
      dsimp only
      rw [postExec_state]
      exact o1
    · dsimp only
      rcases heapGet (overrideStep w).2.2 id with _ | it
      · left
        dsimp only
        rw [postExec_state]
        exact o1
      · right
        refine ⟨it, ?_⟩
        dsimp only
        rcases happ : StateEngine.apply (overrideStep w).2.2.state (some it)
          with ⟨ok, s', it'⟩
        dsimp only
        rw [postExec_state]
        show s' = (StateEngine.apply w.state (some it)).2.1
        rw [← o1, happ]

theorem cycleStep_not_blocked_shape (w : World)
    (hb : ¬ (cycleSafetyFinal w).blocked = true) :
    ∃ (w3 : World) (ex : Option ℕ),
      cycleStep w = emitFrame
        (archiveCompleted (updateLockTracking w3 (cycleFinalSelected w)))
        (cyclePolicy w) (cycleSafetyFinal w) ex
        (overrideStep w).2.1 (cycleLockApplied w) ∧
      w3.frames = w.frames ∧ w3.clock = w.clock ∧
      w3.state = (cycleStep w).state := by
  obtain ⟨_, o2, o3, _, _⟩ := overrideStep_fields w
  unfold cycleStep
  rw [if_neg hb]
  rcases cycleFinalSelected w with _ | id
  · exact ⟨(overrideStep w).2.2, none, rfl, o2, o3,
      (postExec_state _ _ _ _ _ _ _).symm⟩
  · dsimp only
    rcases heapGet (overrideStep w).2.2 id with _ | it
    · exact ⟨(overrideStep w).2.2, none, rfl, o2, o3,
        (postExec_state _ _ _ _ _ _ _).symm⟩
    · dsimp only
      rcases happ : StateEngine.apply (overrideStep w).2.2.state (some it)
        with ⟨ok, s', it'⟩
      dsimp only
      refine ⟨heapSet { (overrideStep w).2.2 with state := s' }
        (it'.getD it), if ok then some id else none, rfl, o2, o3,
        (postExec_state _ _ _ _ _ _ _).symm⟩

theorem cycleStep_frames (w : World) :
    ∃ f : Frame, (cycleStep w).frames = w.frames ++ [f] ∧
      (cycleStep w).clock = w.clock + 1 ∧
      f.timestamp = w.clock ∧ f.ftype = "cycle_frame" ∧
      f.state_position = (cycleStep w).state.position ∧
      f.state_battery_level = (cycleStep w).state.battery_level ∧
      f.state_temperature = (cycleStep w).state.temperature ∧
      f.state_mode = (cycleStep w).state.mode ∧
      f.policy_selected_intent_id =
        (cyclePolicy w).selected_intent.map (·.intent_id) ∧
      f.policy_scores = (cyclePolicy w).scores ∧
      f.execution_override_applied = (overrideStep w).2.1 ∧
      f.execution_lock_applied = cycleLockApplied w ∧
      f.safety_blocked = (cycleSafetyFinal w).blocked ∧
      f.safety_critical_domains = (cycleSafetyFinal w).critical_domains ∧
      f.safety_reason = (cycleSafetyFinal w).reason := by
  by_cases hb : (cycleSafetyFinal w).blocked = true
  · obtain ⟨h1, h2, h3⟩ := cycleStep_blocked w hb
    refine ⟨{ timestamp := w.clock
              ftype := "cycle_frame"
              state_position := w.state.position
              state_battery_level := w.state.battery_level
              state_temperature := w.state.temperature
              state_mode := w.state.mode
              policy_selected_intent_id :=
                (cyclePolicy w).selected_intent.map (·.intent_id)
              policy_scores := (cyclePolicy w).scores
              execution_executed_intent_id := none
              execution_override_applied := (overrideStep w).2.1
              execution_lock_applied := cycleLockApplied w
              safety_blocked := (cycleSafetyFinal w).blocked
              safety_critical_domains :=
                (cycleSafetyFinal w).critical_domains
              safety_reason := (cycleSafetyFinal w).reason },
      h2, h3, rfl, rfl, ?_, ?_, ?_, ?_, rfl, rfl, rfl, rfl,
      rfl, rfl, rfl⟩
    all_goals rw [h1]
  · obtain ⟨w3, ex, hcs, hfr, hck, hst⟩ := cycleStep_not_blocked_shape w hb
    obtain ⟨u1, u2, u3⟩ := updateLockTracking_fields w3 (cycleFinalSelected w)
    obtain ⟨a1, a2, a3⟩ := archiveCompleted_fields
      (updateLockTracking w3 (cycleFinalSelected w))
    obtain ⟨e1, _, e3, e4⟩ := emitFrame_fields
      (archiveCompleted (updateLockTracking w3 (cycleFinalSelected w)))
      (cyclePolicy w) (cycleSafetyFinal w) ex
      (overrideStep w).2.1 (cycleLockApplied w)
    refine ⟨{ timestamp := (archiveCompleted (updateLockTracking w3
                (cycleFinalSelected w))).clock
              ftype := "cycle_frame"
              state_position := (archiveCompleted (updateLockTracking w3
                (cycleFinalSelected w))).state.position
              state_battery_level :=
                (archiveCompleted (updateLockTracking w3
                  (cycleFinalSelected w))).state.battery_level
              state_temperature :=
                (archiveCompleted (updateLockTracking w3
                  (cycleFinalSelected w))).state.temperature
              state_mode := (archiveCompleted (updateLockTracking w3
                (cycleFinalSelected w))).state.mode
              policy_selected_intent_id :=
                (cyclePolicy w).selected_intent.map (·.intent_id)
              policy_scores := (cyclePolicy w).scores
              execution_executed_intent_id := ex
              execution_override_applied := (overrideStep w).2.1
              execution_lock_applied := cycleLockApplied w
              safety_blocked := (cycleSafetyFinal w).blocked
              safety_critical_domains :=
                (cycleSafetyFinal w).critical_domains
              safety_reason := (cycleSafetyFinal w).reason },
      ?_, ?_, ?_, rfl, ?_, ?_, ?_, ?_, rfl, rfl, rfl, rfl,
      rfl, rfl, rfl⟩
    · rw [hcs, e3, a2, u2, hfr]
    · rw [hcs, e4, a3, u3, hck]
    · show (archiveCompleted (updateLockTracking w3
        (cycleFinalSelected w))).clock = w.clock
      rw [a3, u3, hck]
    · show (archiveCompleted (updateLockTracking w3
        (cycleFinalSelected w))).state.position =
        (cycleStep w).state.position
      rw [a1, u1, hst]
    · show (archiveCompleted (updateLockTracking w3
        (cycleFinalSelected w))).state.battery_level =
        (cycleStep w).state.battery_level
      rw [a1, u1, hst]
    · show (archiveCompleted (updateLockTracking w3
        (cycleFinalSelected w))).state.temperature =
        (cycleStep w).state.temperature
      rw [a1, u1, hst]
    · show (archiveCompleted (updateLockTracking w3
        (cycleFinalSelected w))).state.mode =
        (cycleStep w).state.mode
      rw [a1, u1, hst]

theorem run_frames_length : ∀ (n : ℕ) (w : World),
    (run w n).frames.length = w.frames.length + n := by
  intro n
  induction n with
  | zero => intro w; rfl
  | succ k ih =>
    intro w
    show (run (cycleStep w) k).frames.length = w.frames.length + (k + 1)
    rw [ih (cycleStep w)]
    obtain ⟨f, hf, _⟩ := cycleStep_frames w
    rw [hf, List.length_append]
    simp only [List.length_singleton]
    omega

-- ----------------------------------------------------------------
-- Hard-invariant helpers (claim C1)
-- ----------------------------------------------------------------

/-- The hard-invariant violation conditions of the safety gate. -/
def hardViolation (s : SystemState) : Prop :=
  s.battery_level ≤ MIN_BATTERY ∨ s.temperature ≥ MAX_TEMP ∨
    s.position < POSITION_MIN ∨ s.position > POSITION_MAX

/-- The gate's priority order for hard-invariant reasons. -/
def hardReasonStr (s : SystemState) : String :=
  if s.battery_level ≤ MIN_BATTERY then "battery_depleted"
  else if s.temperature ≥ MAX_TEMP then "temperature_max_exceeded"
  else "position_bounds_exceeded"

theorem evaluate_hard (sel : Option Intent) (s : SystemState)
    (h : hardViolation s) :
    (SafetyGate.evaluate sel s).blocked = true ∧
    (SafetyGate.evaluate sel s).reason = some (hardReasonStr s) := by
  unfold SafetyGate.evaluate hardReasonStr
  by_cases h1 : s.battery_level ≤ MIN_BATTERY
  · rw [if_pos h1, if_pos h1]
    exact ⟨rfl, rfl⟩
  · by_cases h2 : s.temperature ≥ MAX_TEMP
    · rw [if_neg h1, if_neg h1, if_pos h2, if_pos h2]
      exact ⟨rfl, rfl⟩
    · have h3 : s.position < POSITION_MIN ∨ s.position > POSITION_MAX := by
        rcases h with h | h | h | h
        · exact absurd h h1
        · exact absurd h h2
        · exact Or.inl h
        · exact Or.inr h
      rw [if_neg h1, if_neg h1, if_neg h2, if_neg h2, if_pos h3]
      exact ⟨rfl, rfl⟩

-- ----------------------------------------------------------------
-- Concrete input worlds used by witnesses and counterexamples
-- ----------------------------------------------------------------

/-- A fresh intent as `submit_intent` would create it. -/
def mkIntent (id : ℕ) (t : String) (gr : Option ℚ)
    (gm : Option String) : Intent :=
  { intent_id := id
    intent_type := t
    goal_reference := gr
    goal_metric := gm
    status := IntentStatus.pending
    evaluation_cycles := 0
    safety_block_cycles := 0
    consecutive_selected_cycles := 0
    archived := false }

/-- A world about to execute an orbit correction from position 9.8: the
executing cycle pushes position to 10.3 with an unblocked frame. -/
def cW1c : World :=
  { heap := [mkIntent 0 "orbit_correction" (some 20.0) (some "position")]
    nextId := 1
    state := { position := 9.8, battery_level := 100, temperature := 25,
               mode := Mode.nominal, cycle_count := 0 }
    lastSelected := none
    pendingSafeInjections := []
    frames := []
    clock := 0 }

/-- A world whose state violates the temperature hard invariant
(150.1 > MAX_TEMP). -/
def cW4 : World :=
  { heap := [mkIntent 0 "orbit_correction" (some 3.0) (some "position")]
    nextId := 1
    state := { position := 0, battery_level := 100, temperature := 150.1,
               mode := Mode.nominal, cycle_count := 0 }
    lastSelected := none
    pendingSafeInjections := []
    frames := []
    clock := 0 }

-- ----------------------------------------------------------------
-- Claims
-- ----------------------------------------------------------------

/-- C10: `StateEngine.apply` with no candidate returns `false` and
mutates only the mode (by the hysteresis rules of `_update_mode`);
position, battery level, temperature and cycle count are unchanged, so an
idle call runs no physics and does not advance the eclipse clock. -/
theorem claim_C10 (s : SystemState) :
    StateEngine.apply s none = (false, updateMode s, none) ∧
    (updateMode s).position = s.position ∧
    (updateMode s).battery_level = s.battery_level ∧
    (updateMode s).temperature = s.temperature ∧
    (updateMode s).cycle_count = s.cycle_count := by
  refine ⟨rfl, ?_, ?_, ?_, ?_⟩ <;>
    (unfold updateMode; split_ifs <;> rfl)

/-- C9: for every starting state and candidate intent,
`StateEngine.apply` leaves `battery_level ≥ MIN_BATTERY` (the power model
clamps at the floor after the orbit-correction drain, and recovery only
raises battery), while temperature and position are not clamped: apply
can return a temperature above MAX_TEMP and a position above
POSITION_MAX. -/
theorem claim_C9 :
    (∀ (s : SystemState) (it : Intent),
      MIN_BATTERY ≤ (StateEngine.apply s (some it)).2.1.battery_level) ∧
    (∃ (s : SystemState) (it : Intent),
      (StateEngine.apply s (some it)).2.1.temperature > MAX_TEMP) ∧
    (∃ (s : SystemState) (it : Intent),
      (StateEngine.apply s (some it)).2.1.position > POSITION_MAX) := by
  refine ⟨?_, ?_, ?_⟩
  · intro s it
    have h := apply_some_battery_nonneg s it
    calc MIN_BATTERY = 0 := by norm_num [MIN_BATTERY]
      _ ≤ _ := h
  · refine ⟨{ position := 0
              battery_level := 100
              temperature := 200
              mode := Mode.nominal
              cycle_count := 0 },
      mkIntent 0 "orbit_correction" (some 20.0) (some "position"), ?_⟩
    with_unfolding_all decide
  · refine ⟨{ position := 9.8
              battery_level := 100
              temperature := 25
              mode := Mode.nominal
              cycle_count := 0 },
      mkIntent 0 "orbit_correction" (some 20.0) (some "position"), ?_⟩
    with_unfolding_all decide

/-- C4: in a cycle whose final safety evaluation is blocked, the
orchestrator leaves every `SystemState` field (position, battery level,
temperature, mode, cycle count) unchanged, emits a frame with
`blocked=true`, the final decision's reason and no executed intent, and
increments the selected intent's `safety_block_cycles`; `StateEngine` is
never invoked. -/
theorem claim_C4 (w : World) (hb : (cycleSafetyFinal w).blocked = true) :
    (cycleStep w).state.position = w.state.position ∧
    (cycleStep w).state.battery_level = w.state.battery_level ∧
    (cycleStep w).state.temperature = w.state.temperature ∧
    (cycleStep w).state.mode = w.state.mode ∧
    (cycleStep w).state.cycle_count = w.state.cycle_count ∧
    (∃ f : Frame, (cycleStep w).frames = w.frames ++ [f] ∧
      f.safety_blocked = true ∧
      f.safety_reason = (cycleSafetyFinal w).reason ∧
      f.execution_executed_intent_id = none) ∧
    (∀ (id : ℕ) (it : Intent), cycleFinalSelected w = some id →
      heapGet (overrideStep w).2.2 id = some it →
      heapGet (cycleStep w) id =
        some { it with
          safety_block_cycles := it.safety_block_cycles + 1 }) := by
  obtain ⟨h1, h2, _⟩ := cycleStep_blocked w hb
  refine ⟨by rw [h1], by rw [h1], by rw [h1], by rw [h1], by rw [h1],
    ⟨_, h2, hb, rfl, rfl⟩, ?_⟩
  intro id it hsel hget
  exact cycleStep_blocked_heap w hb hsel hget

/-- C4 witness: the spec's example input, temperature forced to 150.1:
the final safety decision is blocked with reason
`temperature_max_exceeded` and the theorem applies. -/
theorem claim_C4_witness :
    (cycleSafetyFinal cW4).blocked = true ∧
    (cycleSafetyFinal cW4).reason = some "temperature_max_exceeded" ∧
    ((cycleStep cW4).state.position = cW4.state.position ∧
     (cycleStep cW4).state.battery_level = cW4.state.battery_level ∧
     (cycleStep cW4).state.temperature = cW4.state.temperature ∧
     (cycleStep cW4).state.mode = cW4.state.mode ∧
     (cycleStep cW4).state.cycle_count = cW4.state.cycle_count ∧
     (∃ f : Frame, (cycleStep cW4).frames = cW4.frames ++ [f] ∧
       f.safety_blocked = true ∧
       f.safety_reason = (cycleSafetyFinal cW4).reason ∧
       f.execution_executed_intent_id = none) ∧
     (∀ (id : ℕ) (it : Intent), cycleFinalSelected cW4 = some id →
       heapGet (overrideStep cW4).2.2 id = some it →
       heapGet (cycleStep cW4) id =
         some { it with
           safety_block_cycles := it.safety_block_cycles + 1 })) :=
  ⟨by with_unfolding_all decide, by with_unfolding_all decide,
    claim_C4 cW4 (by with_unfolding_all decide)⟩

/-- C1, counterexample: from position 9.8 (within bounds) an executed
orbit correction leaves position 10.3 > POSITION_MAX while the cycle's
own frame shows `blocked=false` with no reason, so the claimed
disjunction (bounds hold, or this cycle's frame is blocked with a
hard-invariant reason) fails. -/
theorem claim_C1_counterexample :
    (cycleStep cW1c).state.position > POSITION_MAX ∧
    (cycleStep cW1c).frames.map (fun f => f.safety_blocked) = [false] ∧
    (cycleStep cW1c).frames.map (fun f => f.safety_reason) = [none] := by
  refine ⟨?_, ?_, ?_⟩ <;> with_unfolding_all decide

/-- C1 (amended): after every cycle `battery_level ≥ MIN_BATTERY`
(given it held before); and whenever the state violates a hard invariant
at the start of a cycle, that cycle's frame is blocked with the matching
hard-invariant reason (battery before temperature before position) and
the state is unchanged — so an out-of-bounds temperature or position
created by an execution is blocked from the next cycle on, while the
creating cycle's own frame is not blocked. -/
theorem claim_C1 (w : World) :
    (MIN_BATTERY ≤ w.state.battery_level →
      MIN_BATTERY ≤ (cycleStep w).state.battery_level) ∧
    (hardViolation w.state →
      (cycleStep w).state = w.state ∧
      ∃ f : Frame, (cycleStep w).frames = w.frames ++ [f] ∧
        f.safety_blocked = true ∧
        f.safety_reason = some (hardReasonStr w.state)) := by
  constructor
  · intro h0
    rcases cycleStep_state_cases w with h | ⟨it, h⟩
    · rw [h]; exact h0
    · rw [h]
      have hnn := apply_some_battery_nonneg w.state it
      calc MIN_BATTERY = 0 := by norm_num [MIN_BATTERY]
        _ ≤ _ := hnn
  · intro hv
    obtain ⟨o1, _, _, _, _⟩ := overrideStep_fields w
    have hfin : (cycleSafetyFinal w).blocked = true ∧
        (cycleSafetyFinal w).reason = some (hardReasonStr w.state) := by
      unfold cycleSafetyFinal
      rw [o1]
      exact evaluate_hard _ _ hv
    obtain ⟨h1, h2, _⟩ := cycleStep_blocked w hfin.1
    exact ⟨h1, _, h2, hfin.1, hfin.2⟩

/-- C1 witness: the temperature-violating world `cW4` satisfies both
hypotheses, and both conclusions follow by the theorem. -/
theorem claim_C1_witness :
    (MIN_BATTERY ≤ cW4.state.battery_level ∧
      MIN_BATTERY ≤ (cycleStep cW4).state.battery_level) ∧
    (hardViolation cW4.state ∧
      ((cycleStep cW4).state = cW4.state ∧
       ∃ f : Frame, (cycleStep cW4).frames = cW4.frames ++ [f] ∧
         f.safety_blocked = true ∧
         f.safety_reason = some (hardReasonStr cW4.state))) :=
  ⟨⟨by with_unfolding_all decide,
    (claim_C1 cW4).1 (by with_unfolding_all decide)⟩,
   ⟨by unfold hardViolation; with_unfolding_all decide,
    (claim_C1 cW4).2 (by unfold hardViolation; with_unfolding_all decide)⟩⟩

/-- C5: every cycle appends exactly one frame to the bus (append-only),
stamped with the (abstracted wall-clock) timestamp and the
`type=cycle_frame` tag; `getFrames` returns the frame list; a frame is a
value-only record carrying the state snapshot
(position/battery_level/temperature/mode), the policy selection with its
scores, the execution flags, and the safety decision.  Over `run`, the
frame count grows by exactly one per cycle. -/
theorem claim_C5 (w : World) :
    getFrames w = w.frames ∧
    (∀ n : ℕ, (run w n).frames.length = w.frames.length + n) ∧
    ∃ f : Frame, (cycleStep w).frames = w.frames ++ [f] ∧
      (cycleStep w).clock = w.clock + 1 ∧
      f.timestamp = w.clock ∧ f.ftype = "cycle_frame" ∧
      f.state_position = (cycleStep w).state.position ∧
      f.state_battery_level = (cycleStep w).state.battery_level ∧
      f.state_temperature = (cycleStep w).state.temperature ∧
      f.state_mode = (cycleStep w).state.mode ∧
      f.policy_selected_intent_id =
        (cyclePolicy w).selected_intent.map (·.intent_id) ∧
      f.policy_scores = (cyclePolicy w).scores ∧
      f.execution_override_applied = (overrideStep w).2.1 ∧
      f.execution_lock_applied = cycleLockApplied w ∧
      f.safety_blocked = (cycleSafetyFinal w).blocked ∧
      f.safety_critical_domains = (cycleSafetyFinal w).critical_domains ∧
      f.safety_reason = (cycleSafetyFinal w).reason :=
  ⟨rfl, fun n => run_frames_length n w, cycleStep_frames w⟩

/-- A world with a single `battery_recovery` intent, battery 30.7 and
cycle_count 13 (so the next two power-model steps are eclipse steps):
the intent completes and is archived in cycle 1, and the recovery lock
resurrects it in cycle 2. -/
def cW2 : World :=
  { heap := [mkIntent 0 "battery_recovery" none none]
    nextId := 1
    state := { position := 0, battery_level := 30.7, temperature := 25,
               mode := Mode.nominal, cycle_count := 13 }
    lastSelected := none
    pendingSafeInjections := []
    frames := []
    clock := 0 }

/-- C2 (code-bug exhibit): after cycle 1 the `battery_recovery` intent is
`COMPLETED` and archived; in cycle 2 the recovery lock forces the stale
`last_selected` reference back in, `StateEngine.apply` sets its status to
`ACTIVE` again, and it is recorded as the executed intent of both cycles
— a terminal status is left, violating the lifecycle DAG.  It does stay
invisible to `list_active`. -/
theorem claim_C2_bug :
    ((heapGet (run cW2 1) 0).map (fun i => i.status) =
      some IntentStatus.completed) ∧
    ((heapGet (run cW2 1) 0).map (fun i => i.archived) = some true) ∧
    ((heapGet (run cW2 2) 0).map (fun i => i.status) =
      some IntentStatus.active) ∧
    ((run cW2 2).frames.map (fun f => f.execution_executed_intent_id) =
      [some 0, some 0]) ∧
    listActive (run cW2 2) = [] := by
  refine ⟨?_, ?_, ?_, ?_, ?_⟩ <;> with_unfolding_all decide

/-- The `battery_recovery` intent as it stands at the start of cycle k+1
of the C3 scenario: selected once in cycle k, hence `ACTIVE` with
`consecutive_selected_cycles = 1`. -/
def cW3rec : Intent :=
  { mkIntent 0 "battery_recovery" none none with
    status := IntentStatus.active
    consecutive_selected_cycles := 1 }

/-- C3 scenario world (cycle k+1): the recovery intent of `cW3rec` was
selected in cycle k (`lastSelected = 0`), an `orbit_correction` intent is
also active, and battery 26 in NOMINAL makes policy prefer the orbit
intent (score 100 against −200). -/
def cW3 : World :=
  { heap := [cW3rec,
      { mkIntent 1 "orbit_correction" (some 20.0) (some "position") with
        status := IntentStatus.active }]
    nextId := 2
    state := { position := 0, battery_level := 26, temperature := 25,
               mode := Mode.nominal, cycle_count := 0 }
    lastSelected := some 0
    pendingSafeInjections := []
    frames := []
    clock := 0 }

/-- C3: whenever the previously selected intent exists, its type ends in
`_recovery`, the first safety evaluation reports no critical domains and
its `consecutive_selected_cycles` is below `MIN_RECOVERY_LOCK_CYCLES`,
the lock forces the final selection back to it; a non-empty
`critical_domains` always disables the lock (the selection after the
critical override stands).  Concretely, with `battery_recovery` selected
in cycle k and policy preferring the orbit intent, cycles k+1 and k+2
still select the recovery intent, and in cycle k+3 policy decides freely
(the orbit intent wins). -/
theorem claim_C3 :
    (∀ (w : World) (lastId : ℕ) (last : Intent),
      w.lastSelected = some lastId →
      heapGet (overrideStep w).2.2 lastId = some last →
      strEndsWith last.intent_type "_recovery" = true →
      (cycleSafetyFirst w).critical_domains = [] →
      last.consecutive_selected_cycles < MIN_RECOVERY_LOCK_CYCLES →
      cycleFinalSelected w = some lastId) ∧
    (∀ w : World, (cycleSafetyFirst w).critical_domains ≠ [] →
      cycleFinalSelected w = (overrideStep w).1) ∧
    (cycleFinalSelected cW3 = some 0 ∧
     (cyclePolicy cW3).selected_intent.map (·.intent_id) = some 1 ∧
     cycleFinalSelected (cycleStep cW3) = some 0 ∧
     (cyclePolicy (cycleStep cW3)).selected_intent.map (·.intent_id) =
       some 1 ∧
     cycleFinalSelected (cycleStep (cycleStep cW3)) = some 1 ∧
     (cyclePolicy (cycleStep (cycleStep cW3))).selected_intent.map
       (·.intent_id) = some 1) := by
  refine ⟨?_, ?_, ?_⟩
  · intro w lastId last h1 h2 h3 h4 h5
    obtain ⟨_, _, _, o4, _⟩ := overrideStep_fields w
    unfold cycleFinalSelected applyRecoveryLock
    rw [o4, h1]
    dsimp only
    rw [h2]
    dsimp only
    simp [h3, h4, h5]
  · intro w hcrit
    unfold cycleFinalSelected applyRecoveryLock
    rcases hls : (overrideStep w).2.2.lastSelected with _ | lastId
    · rfl
    · dsimp only
      rcases hg : heapGet (overrideStep w).2.2 lastId with _ | last
      · rfl
      · dsimp only
        split_ifs <;> rfl
  · refine ⟨?_, ?_, ?_, ?_, ?_, ?_⟩ <;> with_unfolding_all decide

/-- C3 witness: the scenario world `cW3` satisfies the lock hypotheses,
and the theorem's first conjunct forces the selection back to the
recovery intent. -/
theorem claim_C3_witness :
    cW3.lastSelected = some 0 ∧
    heapGet (overrideStep cW3).2.2 0 = some cW3rec ∧
    strEndsWith cW3rec.intent_type "_recovery" = true ∧
    (cycleSafetyFirst cW3).critical_domains = [] ∧
    cW3rec.consecutive_selected_cycles < MIN_RECOVERY_LOCK_CYCLES ∧
    cycleFinalSelected cW3 = some 0 :=
  ⟨rfl, by with_unfolding_all decide, by with_unfolding_all decide,
   by with_unfolding_all decide, by with_unfolding_all decide,
   claim_C3.1 cW3 0 cW3rec rfl (by with_unfolding_all decide)
     (by with_unfolding_all decide) (by with_unfolding_all decide)
     (by with_unfolding_all decide)⟩

/-- The main-program scenario of C6: battery 4.0, one `orbit_correction`
intent. -/
def cW6 : World :=
  { heap := [mkIntent 0 "orbit_correction" (some 3.0) (some "position")]
    nextId := 1
    state := { position := 0, battery_level := 4.0, temperature := 25,
               mode := Mode.nominal, cycle_count := 0 }
    lastSelected := none
    pendingSafeInjections := []
    frames := []
    clock := 0 }

/-- C6, counterexample: cycle 1 does move the mode to SAFE, but the
staged injection set it leaves behind is empty, not {battery_recovery}
(staging is computed from the still-NOMINAL pre-update mode); and no
frame of cycles 1–2 ever carries the reason `safe_mode_mission_blocked`
(safety evaluates only the selected intent, which is the injected
`battery_recovery`). -/
theorem claim_C6_counterexample :
    (cycleStep cW6).state.mode = Mode.safe ∧
    (cycleStep cW6).pendingSafeInjections = [] ∧
    (run cW6 2).frames.map (fun f => f.safety_reason) = [none, none] := by
  refine ⟨?_, ?_, ?_⟩ <;> with_unfolding_all decide

/-- C6 (amended): starting from battery 4.0 with a single
`orbit_correction` intent, cycle 1 transitions the mode to SAFE with an
empty staged injection set, and the critical-battery override already
submits and selects a `battery_recovery` intent (id 1) in cycle 1 with
`override_applied=true`; in cycle 2, {battery_recovery} is staged (for
cycle 3), the `battery_recovery` intent exists and is selected, and the
`orbit_correction` intent is simply not selected — no
`safe_mode_mission_blocked` block occurs. -/
theorem claim_C6 :
    (cycleStep cW6).state.mode = Mode.safe ∧
    (cycleStep cW6).pendingSafeInjections = [] ∧
    (cycleStep cW6).frames.map (fun f =>
      (f.policy_selected_intent_id, f.execution_executed_intent_id,
        f.execution_override_applied, f.safety_blocked)) =
      [(some 0, some 1, true, false)] ∧
    (heapGet (cycleStep cW6) 1).map (fun i => i.intent_type) =
      some "battery_recovery" ∧
    (run cW6 2).pendingSafeInjections = ["battery_recovery"] ∧
    (run cW6 2).frames.map (fun f =>
      (f.policy_selected_intent_id, f.execution_executed_intent_id,
        f.safety_blocked, f.safety_reason)) =
      [(some 0, some 1, false, none), (some 1, some 1, false, none)] := by
  refine ⟨?_, ?_, ?_, ?_, ?_, ?_⟩ <;> with_unfolding_all decide

-- ----------------------------------------------------------------
-- Safety monotonicity (claim C7)
-- ----------------------------------------------------------------

theorem evaluate_blocked_iff (sel : Option Intent) (s : SystemState) :
    (SafetyGate.evaluate sel s).blocked = true ↔
      (s.battery_level ≤ MIN_BATTERY ∨ s.temperature ≥ MAX_TEMP ∨
        s.position < POSITION_MIN ∨ s.position > POSITION_MAX ∨
        ∃ it, sel = some it ∧
          ((s.mode = Mode.safe ∧
              ¬ strEndsWith it.intent_type "_recovery" = true) ∨
           (s.mode = Mode.lowPower ∧
              it.intent_type ∈ ENERGY_INTENSIVE_INTENTS) ∨
           ∃ d ∈ violatedDomains s,
             ((INTENT_DOMAIN_MAP it.intent_type).contains d &&
               !strEndsWith it.intent_type "_recovery") = true)) := by
  unfold SafetyGate.evaluate
  rcases sel with _ | it
  · dsimp only
    split_ifs with h1 h2 h3 <;> simp_all
  · dsimp only
    split_ifs with h1 h2 h3 h4 h5
    · exact iff_of_true rfl (Or.inl h1)
    · exact iff_of_true rfl (Or.inr (Or.inl h2))
    · refine iff_of_true rfl (Or.inr (Or.inr ?_))
      exact h3.elim (fun a => Or.inl a) (fun a => Or.inr (Or.inl a))
    · exact iff_of_true rfl (Or.inr (Or.inr (Or.inr (Or.inr
        ⟨it, rfl, Or.inl h4⟩))))
    · exact iff_of_true rfl (Or.inr (Or.inr (Or.inr (Or.inr
        ⟨it, rfl, Or.inr (Or.inl h5)⟩))))
    · rcases hf : (violatedDomains s).find? (fun d =>
          (INTENT_DOMAIN_MAP it.intent_type).contains d &&
            !strEndsWith it.intent_type "_recovery") with _ | d
      · refine iff_of_false (by simp) ?_
        rw [List.find?_eq_none] at hf
        intro hcon
        rcases hcon with h | h | h | h | ⟨it', heq, hcase⟩
        · exact h1 h
        · exact h2 h
        · exact h3 (Or.inl h)
        · exact h3 (Or.inr h)
        · injection heq with heq
          subst heq
          rcases hcase with hc | hc | ⟨d, hd, hp⟩
          · exact h4 hc
          · exact h5 hc
          · exact (hf d hd) hp
      · have hmem := List.mem_of_find?_eq_some hf
        have hpred : ((INTENT_DOMAIN_MAP it.intent_type).contains d &&
            !strEndsWith it.intent_type "_recovery") = true :=
          @List.find?_some String
            (fun x => (INTENT_DOMAIN_MAP it.intent_type).contains x &&
              !strEndsWith it.intent_type "_recovery") d _ hf
        exact iff_of_true rfl (Or.inr (Or.inr (Or.inr (Or.inr
          ⟨it, rfl, Or.inr (Or.inr ⟨d, hmem, hpred⟩)⟩))))

theorem violatedDomains_mono {s s' : SystemState}
    (hb : s'.battery_level ≤ s.battery_level)
    (ht : s.temperature ≤ s'.temperature) :
    ∀ d ∈ violatedDomains s, d ∈ violatedDomains s' := by
  intro d hd
  unfold violatedDomains at hd ⊢
  rw [List.mem_append] at hd ⊢
  rcases hd with hd | hd
  · left
    by_cases h1 : s.battery_level ≤ SAFE_ENTRY_BATTERY
    · rw [if_pos (le_trans hb h1)]
      rwa [if_pos h1] at hd
    · rw [if_neg h1] at hd
      exact absurd hd (List.not_mem_nil d)
  · right
    by_cases h2 : s.temperature ≥ SAFE_ENTRY_TEMP
    · rw [if_pos (le_trans h2 ht)]
      rwa [if_pos h2] at hd
    · rw [if_neg h2] at hd
      exact absurd hd (List.not_mem_nil d)

/-- C7: `SafetyGate.evaluate` is monotone in badness: with the same
candidate, the same mode and the same position, if it blocks a state it
blocks every strictly worse state (battery no higher, temperature no
lower — in particular strictly lower battery and strictly higher
temperature). -/
theorem claim_C7 (sel : Option Intent) (pos b t b' t' : ℚ) (m : Mode)
    (cc cc' : ℕ)
    (hb : b' ≤ b) (ht : t ≤ t')
    (hblocked : (SafetyGate.evaluate sel
      { position := pos, battery_level := b, temperature := t,
        mode := m, cycle_count := cc }).blocked = true) :
    (SafetyGate.evaluate sel
      { position := pos, battery_level := b', temperature := t',
        mode := m, cycle_count := cc' }).blocked = true := by
  rw [evaluate_blocked_iff] at hblocked ⊢
  rcases hblocked with h | h | h | h | ⟨it, hsel, hcase⟩
  · exact Or.inl (le_trans hb h)
  · exact Or.inr (Or.inl (le_trans h ht))
  · exact Or.inr (Or.inr (Or.inl h))
  · exact Or.inr (Or.inr (Or.inr (Or.inl h)))
  · refine Or.inr (Or.inr (Or.inr (Or.inr ⟨it, hsel, ?_⟩)))
    rcases hcase with hc | hc | ⟨d, hd, hp⟩
    · exact Or.inl hc
    · exact Or.inr (Or.inl hc)
    · exact Or.inr (Or.inr ⟨d, violatedDomains_mono hb ht d hd, hp⟩)

/-- C7 witness: an `orbit_correction` candidate is blocked at battery 10
(SAFE-entry violation of the battery domain), and remains blocked at the
strictly worse battery 3 / temperature 30. -/
theorem claim_C7_witness :
    ((3 : ℚ) ≤ 10 ∧ (25 : ℚ) ≤ 30) ∧
    (SafetyGate.evaluate
      (some (mkIntent 0 "orbit_correction" (some 3.0) (some "position")))
      { position := 0, battery_level := 10, temperature := 25,
        mode := Mode.nominal, cycle_count := 0 }).blocked = true ∧
    (SafetyGate.evaluate
      (some (mkIntent 0 "orbit_correction" (some 3.0) (some "position")))
      { position := 0, battery_level := 3, temperature := 30,
        mode := Mode.nominal, cycle_count := 0 }).blocked = true :=
  ⟨⟨by norm_num, by norm_num⟩, by with_unfolding_all decide,
    claim_C7 _ 0 10 25 3 30 Mode.nominal 0 0
      (by norm_num) (by norm_num) (by with_unfolding_all decide)⟩

-- ----------------------------------------------------------------
-- Policy scoring and selection (claim C8)
-- ----------------------------------------------------------------

/-- The §4.2 scoring table as the spec words it, for the refinement
statement of C8: base score per intent type (battery target is
`LOW_POWER_EXIT` in LOW_POWER, else `SAFE_EXIT_BATTERY`), a single mode
bias (+50 for `_recovery` in LOW_POWER, −200 in NOMINAL), and the history
penalty `−0.5 × safety_block_cycles`. -/
def specScore (i : Intent) (s : SystemState) : ℚ :=
  (if i.intent_type = "battery_recovery" then
    ratMax 0 (((if s.mode = Mode.lowPower then LOW_POWER_EXIT
        else SAFE_EXIT_BATTERY) - s.battery_level) /
      (if s.mode = Mode.lowPower then LOW_POWER_EXIT
        else SAFE_EXIT_BATTERY)) * 1000
  else if i.intent_type = "thermal_recovery" then
    ratMax 0 ((s.temperature - SAFE_EXIT_TEMP) / SAFE_EXIT_TEMP) * 1000
  else if i.intent_type = "orbit_correction" then 100.0
  else 0)
  + (if strEndsWith i.intent_type "_recovery" = true ∧
        s.mode = Mode.lowPower then 50.0
    else if strEndsWith i.intent_type "_recovery" = true ∧
        s.mode = Mode.nominal then -200.0
    else 0)
  - 0.5 * (i.safety_block_cycles : ℚ)

theorem policyScore_eq_specScore (i : Intent) (s : SystemState) :
    policyScore i s = specScore i s := by
  unfold policyScore specScore RECOVERY_SCALE LOW_POWER_BIAS
    NOMINAL_RECOVERY_PENALTY HISTORY_PENALTY_FACTOR
  split_ifs <;> first
    | (exfalso; simp_all; done)
    | ring

theorem foldl_dictInsert_eq_map (s : SystemState) :
    ∀ (l : List Intent) (acc : List (ℕ × ℚ)),
      (∀ i ∈ l, ∀ p ∈ acc, p.1 ≠ i.intent_id) →
      ((l.map (fun i => i.intent_id)).Nodup) →
      l.foldl (fun acc i => dictInsert acc i.intent_id (policyScore i s))
          acc =
        acc ++ l.map (fun i => (i.intent_id, policyScore i s)) := by
  intro l
  induction l with
  | nil => intro acc _ _; simp
  | cons i rest ih =>
    intro acc hacc hnd
    rw [List.foldl_cons]
    have hnotin : (acc.any (fun p => p.1 == i.intent_id)) = false := by
      rw [List.any_eq_false]
      intro p hp
      simp only [beq_iff_eq]
      exact hacc i (List.mem_cons_self i rest) p hp
    have hins : dictInsert acc i.intent_id (policyScore i s) =
        acc ++ [(i.intent_id, policyScore i s)] := by
      unfold dictInsert
      rw [hnotin]
      simp
    rw [hins]
    rw [ih (acc ++ [(i.intent_id, policyScore i s)]) ?_ ?_]
    · simp
    · intro j hj p hp
      rcases List.mem_append.mp hp with hp | hp
      · exact hacc j (List.mem_cons_of_mem i hj) p hp
      · have hpi : p = (i.intent_id, policyScore i s) := by
          simpa using hp
        subst hpi
        intro he
        have hmem : i.intent_id ∈ rest.map (fun x => x.intent_id) := by
          rw [show i.intent_id = j.intent_id from he]
          exact List.mem_map_of_mem _ hj
        exact (List.nodup_cons.mp hnd).1 hmem
    · exact (List.nodup_cons.mp hnd).2

theorem maxByValFirst_spec (l : List (ℕ × ℚ)) : ∀ x : ℕ × ℚ,
    ∃ (k : ℕ) (m : ℕ × ℚ), (x :: l)[k]? = some m ∧
      maxByValFirst x l = m ∧
      (∀ (j : ℕ) (p : ℕ × ℚ), j < k → (x :: l)[j]? = some p →
        p.2 < m.2) ∧
      (∀ (j : ℕ) (p : ℕ × ℚ), (x :: l)[j]? = some p → p.2 ≤ m.2) := by
  induction l with
  | nil =>
    intro x
    refine ⟨0, x, rfl, rfl, ?_, ?_⟩
    · intro j p hj _
      omega
    · intro j p hp
      cases j with
      | zero =>
        have : p = x := by simpa using hp.symm
        rw [this]
      | succ j' => simp at hp
  | cons y ys ih =>
    intro x
    have hstep : maxByValFirst x (y :: ys) =
        maxByValFirst (if y.2 > x.2 then y else x) ys := rfl
    by_cases hyx : y.2 > x.2
    · obtain ⟨k, m, hk, hm, hlt, hle⟩ := ih y
      refine ⟨k + 1, m, by simpa using hk, ?_, ?_, ?_⟩
      · rw [hstep, if_pos hyx]
        exact hm
      · intro j p hj hp
        cases j with
        | zero =>
          have hpx : p = x := by simpa using hp.symm
          have hy2 : y.2 ≤ m.2 := hle 0 y List.getElem?_cons_zero
          rw [hpx]
          exact lt_of_lt_of_le hyx hy2
        | succ j' =>
          exact hlt j' p (by omega) (by simpa using hp)
      · intro j p hp
        cases j with
        | zero =>
          have hpx : p = x := by simpa using hp.symm
          have hy2 : y.2 ≤ m.2 := hle 0 y List.getElem?_cons_zero
          rw [hpx]
          exact le_of_lt (lt_of_lt_of_le hyx hy2)
        | succ j' =>
          exact hle j' p (by simpa using hp)
    · obtain ⟨k, m, hk, hm, hlt, hle⟩ := ih x
      have hyle : y.2 ≤ x.2 := le_of_not_lt hyx
      cases k with
      | zero =>
        have hmx : m = x := by simpa using hk.symm
        subst hmx
        refine ⟨0, m, rfl, ?_, ?_, ?_⟩
        · rw [hstep, if_neg hyx]
          exact hm
        · intro j p hj _
          omega
        · intro j p hp
          cases j with
          | zero =>
            have hpx : p = m := by simpa using hp.symm
            rw [hpx]
          | succ j' =>
            cases j' with
            | zero =>
              have hpy : p = y := by simpa using hp.symm
              rw [hpy]
              exact hyle
            | succ j'' =>
              exact hle (j'' + 1) p (by simpa using hp)
      | succ k' =>
        have hxlt : x.2 < m.2 := hlt 0 x (by omega) List.getElem?_cons_zero
        refine ⟨k' + 2, m, by simpa using hk, ?_, ?_, ?_⟩
        · rw [hstep, if_neg hyx]
          exact hm
        · intro j p hj hp
          cases j with
          | zero =>
            have hpx : p = x := by simpa using hp.symm
            rw [hpx]
            exact hxlt
          | succ j' =>
            cases j' with
            | zero =>
              have hpy : p = y := by simpa using hp.symm
              rw [hpy]
              exact lt_of_le_of_lt hyle hxlt
            | succ j'' =>
              exact hlt (j'' + 1) p (by omega) (by simpa using hp)
        · intro j p hp
          cases j with
          | zero =>
            have hpx : p = x := by simpa using hp.symm
            rw [hpx]
            exact le_of_lt hxlt
          | succ j' =>
            cases j' with
            | zero =>
              have hpy : p = y := by simpa using hp.symm
              rw [hpy]
              exact le_trans hyle (le_of_lt hxlt)
            | succ j'' =>
              exact hle (j'' + 1) p (by simpa using hp)

theorem find?_by_id : ∀ {l : List Intent},
    ((l.map (fun i => i.intent_id)).Nodup) →
    ∀ {k : ℕ} {a : Intent}, l[k]? = some a →
    l.find? (fun i => i.intent_id == a.intent_id) = some a := by
  intro l
  induction l with
  | nil =>
    intro _ k a hk
    simp at hk
  | cons b rest ih =>
    intro hnd k a hk
    cases k with
    | zero =>
      have hab : a = b := by simpa using hk.symm
      subst hab
      simp [List.find?]
    | succ k' =>
      have hk' : rest[k']? = some a := by simpa using hk
      have hamem : a ∈ rest := List.getElem?_mem hk'
      have hne : (b.intent_id == a.intent_id) = false := by
        rw [beq_eq_false_iff_ne]
        intro he
        have hmem : b.intent_id ∈ rest.map (fun i => i.intent_id) := by
          rw [he]
          exact List.mem_map_of_mem _ hamem
        exact (List.nodup_cons.mp hnd).1 hmem
      simp only [List.find?, hne]
      exact ih (List.nodup_cons.mp hnd).2 hk'

theorem evaluate_cons_eq (i0 : Intent) (rest : List Intent)
    (s : SystemState)
    (hnd : (((i0 :: rest).map (fun i => i.intent_id)).Nodup)) :
    PolicyGate.evaluate (i0 :: rest) s =
      ⟨(i0 :: rest).find? (fun i => i.intent_id ==
          (maxByValFirst (i0.intent_id, policyScore i0 s)
            (rest.map (fun i => (i.intent_id, policyScore i s)))).1),
        (i0 :: rest).map (fun i => (i.intent_id, policyScore i s)),
        "highest_score_selected"⟩ := by
  have hscores := foldl_dictInsert_eq_map s (i0 :: rest) []
    (by simp) hnd
  rw [List.nil_append] at hscores
  simp only [PolicyGate.evaluate]
  rw [hscores]
  simp only [List.map_cons]

/-- C8: `PolicyGate.evaluate` on the empty set returns no selection with
reason `no_active_intents`; on a non-empty set (with the program's
unique intent ids) it returns reason `highest_score_selected`, a scores
map that assigns every intent exactly the spec's §4.2 score, and selects
an intent of maximal score breaking ties by insertion order: every
earlier intent scores strictly less, and no intent scores more. -/
theorem claim_C8 (intents : List Intent) (s : SystemState) :
    PolicyGate.evaluate [] s =
      ⟨none, [], "no_active_intents"⟩ ∧
    (intents ≠ [] →
      ((intents.map (fun i => i.intent_id)).Nodup) →
      (PolicyGate.evaluate intents s).reason = "highest_score_selected" ∧
      (PolicyGate.evaluate intents s).scores =
        intents.map (fun i => (i.intent_id, specScore i s)) ∧
      ∃ (k : ℕ) (sel : Intent), intents[k]? = some sel ∧
        (PolicyGate.evaluate intents s).selected_intent = some sel ∧
        (∀ (j : ℕ) (p : Intent), j < k → intents[j]? = some p →
          specScore p s < specScore sel s) ∧
        (∀ (j : ℕ) (p : Intent), intents[j]? = some p →
          specScore p s ≤ specScore sel s)) := by
  refine ⟨rfl, ?_⟩
  intro hne hnd
  rcases intents with _ | ⟨i0, rest⟩
  · exact absurd rfl hne
  rw [evaluate_cons_eq i0 rest s hnd]
  refine ⟨rfl, ?_, ?_⟩
  · show (i0 :: rest).map (fun i => (i.intent_id, policyScore i s)) = _
    exact List.map_congr_left (fun a _ => by
      rw [policyScore_eq_specScore])
  · obtain ⟨k, m, hk, hm, hlt, hle⟩ := maxByValFirst_spec
      (rest.map (fun i => (i.intent_id, policyScore i s)))
      (i0.intent_id, policyScore i0 s)
    have hk' : (((i0 :: rest).map
        (fun i => (i.intent_id, policyScore i s)))[k]?) = some m := hk
    rw [List.getElem?_map] at hk'
    obtain ⟨sel, hsel, hfm⟩ := Option.map_eq_some'.mp hk'
    refine ⟨k, sel, hsel, ?_, ?_, ?_⟩
    · show (i0 :: rest).find? (fun i => i.intent_id ==
        (maxByValFirst (i0.intent_id, policyScore i0 s)
          (rest.map (fun i => (i.intent_id, policyScore i s)))).1) =
          some sel
      rw [hm]
      have hm1 : m.1 = sel.intent_id := by rw [← hfm]
      rw [hm1]
      exact find?_by_id hnd hsel
    · intro j p hj hp
      have hjm : (((i0 :: rest).map
          (fun i => (i.intent_id, policyScore i s)))[j]?) =
          some (p.intent_id, policyScore p s) := by
        rw [List.getElem?_map, hp]
        rfl
      have := hlt j (p.intent_id, policyScore p s) hj hjm
      rw [← hfm] at this
      simpa [policyScore_eq_specScore] using this
    · intro j p hp
      have hjm : (((i0 :: rest).map
          (fun i => (i.intent_id, policyScore i s)))[j]?) =
          some (p.intent_id, policyScore p s) := by
        rw [List.getElem?_map, hp]
        rfl
      have := hle j (p.intent_id, policyScore p s) hjm
      rw [← hfm] at this
      simpa [policyScore_eq_specScore] using this

/-- The C8 witness inputs: two orbit intents with equal scores in a
nominal state. -/
def c8st : SystemState :=
  { position := 0
    battery_level := 100
    temperature := 25
    mode := Mode.nominal
    cycle_count := 0 }

def c8l : List Intent :=
  [mkIntent 0 "orbit_correction" none none,
   mkIntent 1 "orbit_correction" none none]

/-- C8 witness: at `c8l`/`c8st` both hypotheses hold and the theorem
instance yields the selection spec (the first of the two equal-scoring
intents wins). -/
theorem claim_C8_witness :
    c8l ≠ [] ∧ ((c8l.map (fun i => i.intent_id)).Nodup) ∧
    ((PolicyGate.evaluate c8l c8st).reason = "highest_score_selected" ∧
     (PolicyGate.evaluate c8l c8st).scores =
       c8l.map (fun i => (i.intent_id, specScore i c8st)) ∧
     ∃ (k : ℕ) (sel : Intent), c8l[k]? = some sel ∧
       (PolicyGate.evaluate c8l c8st).selected_intent = some sel ∧
       (∀ (j : ℕ) (p : Intent), j < k → c8l[j]? = some p →
         specScore p c8st < specScore sel c8st) ∧
       (∀ (j : ℕ) (p : Intent), c8l[j]? = some p →
         specScore p c8st ≤ specScore sel c8st)) :=
  ⟨by simp [c8l], by simp [c8l, mkIntent],
    (claim_C8 c8l c8st).2 (by simp [c8l]) (by simp [c8l, mkIntent])⟩

end Sim
